import Mathlib

/-!
Survey service (`src/src/main.go`).

A shallow embedding of the Go program: the four HTTP handlers, the router set
up by `main`, the configuration helper `getEnv` and the start-up sequence.

The program is glue around four libraries.  Their behaviour is embedded as far
as the handlers observe it:

* `encoding/json`: the scanner automaton of `scanner.go`, `Decoder.Decode`
  into the `Answer` struct, and `Encoder.Encode` for strings;
* `net/http`: `ResponseWriter`, `http.Error`;
* `gorilla/mux`: `Router.ServeHTTP` with `Route.Match`;
* the MongoDB driver: `Client.Ping` and `Collection.InsertOne`, whose outcomes
  are supplied by the environment.

Request bodies are sequences of Unicode characters (well-formed UTF-8 text).
-/

namespace GoApp

/-! ## encoding/json: values and the scanner -/

/-- A JSON value as `encoding/json` sees it.  Object members are kept in input
order and may repeat a name; a number keeps its literal text. -/
inductive JValue where
  | null : JValue
  | bool (b : Bool) : JValue
  | num (literal : List Char) : JValue
  | str (s : String) : JValue
  | arr (elems : List JValue) : JValue
  | obj (members : List (String × JValue)) : JValue

/-- The errors `Decoder.Decode` can return: `io.EOF`, `io.ErrUnexpectedEOF`,
a `*SyntaxError`, or an `*UnmarshalTypeError` naming the JSON kind that did not
fit the Go type. -/
inductive DecodeError where
  | eof : DecodeError
  | unexpectedEOF : DecodeError
  | malformed : DecodeError
  | unmarshalType (value : String) : DecodeError
  deriving DecidableEq, Repr

/-- Embeds `isSpace` of scanner.go. -/
def isSpace (c : Char) : Bool :=
  c = ' ' || c = '\t' || c = '\r' || c = '\n'

/-- A decimal digit. -/
def isDigit (c : Char) : Bool := '0'.toNat ≤ c.toNat && c.toNat ≤ '9'.toNat

/-- A digit `1`..`9`. -/
def isDigit19 (c : Char) : Bool := '1'.toNat ≤ c.toNat && c.toNat ≤ '9'.toNat

/-- A hexadecimal digit, either case. -/
def isHex (c : Char) : Bool :=
  isDigit c || ('a'.toNat ≤ c.toNat && c.toNat ≤ 'f'.toNat)
    || ('A'.toNat ≤ c.toNat && c.toNat ≤ 'F'.toNat)

/-- The value of a hexadecimal digit (`getu4` of decode.go). -/
def hexVal (c : Char) : Nat :=
  if isDigit c then c.toNat - '0'.toNat
  else if 'a'.toNat ≤ c.toNat && c.toNat ≤ 'f'.toNat then c.toNat - 'a'.toNat + 10
  else c.toNat - 'A'.toNat + 10

/-- One unit of an unquoted string: a character, or the 16-bit value of a
`\uXXXX` escape (which may be half of a surrogate pair). -/
inductive StrUnit where
  | chr (c : Char) : StrUnit
  | esc (code : Nat) : StrUnit

/-- The character a one-letter escape stands for (`unquoteBytes`). -/
def escapeChar (c : Char) : Char :=
  if c = 'b' then Char.ofNat 8
  else if c = 'f' then Char.ofNat 12
  else if c = 'n' then '\n'
  else if c = 'r' then '\r'
  else if c = 't' then '\t'
  else c

/-- First pass of `unquoteBytes`: split the text between the quotes into plain
characters and escapes.  The scanner has already checked the escapes. -/
def strUnits : List Char → List StrUnit
  | [] => []
  | c :: rest =>
    if c = '\\' then
      match rest with
      | [] => []
      | e :: rest1 =>
        if e = 'u' then
          match rest1 with
          | h1 :: h2 :: h3 :: h4 :: rest2 =>
            StrUnit.esc (((hexVal h1 * 16 + hexVal h2) * 16 + hexVal h3) * 16 + hexVal h4)
              :: strUnits rest2
          | _ => []
        else StrUnit.chr (escapeChar e) :: strUnits rest1
    else StrUnit.chr c :: strUnits rest

/-- Embeds `utf16.IsSurrogate`. -/
def isSurrogate (r : Nat) : Bool := 0xD800 ≤ r && r < 0xE000

/-- Embeds `unicode.ReplacementChar`. -/
def replacementChar : Char := Char.ofNat 0xFFFD

/-- Second pass of `unquoteBytes`: a high surrogate escape directly followed by
a low surrogate escape is one character (`utf16.DecodeRune`); any other
surrogate escape becomes U+FFFD. -/
def joinUnits : List StrUnit → List Char
  | [] => []
  | StrUnit.chr c :: rest => c :: joinUnits rest
  | StrUnit.esc hi :: [] => [if isSurrogate hi then replacementChar else Char.ofNat hi]
  | StrUnit.esc hi :: StrUnit.chr c :: rest =>
    (if isSurrogate hi then replacementChar else Char.ofNat hi) :: c :: joinUnits rest
  | StrUnit.esc hi :: StrUnit.esc lo :: rest =>
    if isSurrogate hi then
      if 0xD800 ≤ hi && hi < 0xDC00 && 0xDC00 ≤ lo && lo < 0xE000 then
        Char.ofNat ((hi - 0xD800) * 1024 + (lo - 0xDC00) + 0x10000) :: joinUnits rest
      else replacementChar :: joinUnits (StrUnit.esc lo :: rest)
    else Char.ofNat hi :: joinUnits (StrUnit.esc lo :: rest)

/-- Embeds `unquote` of decode.go on the text between the quotes of a literal. -/
def unquote (raw : List Char) : String := String.mk (joinUnits (strUnits raw))

/-- An entry of the scanner's `parseState` stack, together with what the
decoder has collected for that container so far. -/
inductive Frame where
  | objectKey (members : List (String × JValue)) (key : Option String) : Frame
  | objectValue (members : List (String × JValue)) (key : Option String) : Frame
  | arrayValue (elems : List JValue) : Frame

/-- The scanner's `step` function, with the text of the literal being read. -/
inductive Step where
  | beginValue : Step
  | beginValueOrEmpty : Step
  | beginStringOrEmpty : Step
  | beginString : Step
  | endValue : Step
  | inString (raw : List Char) : Step
  | inStringEsc (raw : List Char) : Step
  | inStringEscU (raw : List Char) (seen : Nat) : Step
  | neg (raw : List Char) : Step
  | zero (raw : List Char) : Step
  | one (raw : List Char) : Step
  | dot (raw : List Char) : Step
  | dot0 (raw : List Char) : Step
  | exp (raw : List Char) : Step
  | expSign (raw : List Char) : Step
  | exp0 (raw : List Char) : Step
  | inLiteral (rest : List Char) (v : JValue) : Step

/-- The scanner: current step and the stack of open containers. -/
structure Scanner where
  step : Step
  parseState : List Frame

/-- What feeding one character to the scanner gives. -/
inductive Scan where
  | more (s : Scanner) : Scan
  | done (v : JValue) : Scan
  | fail : Scan

/-- Embeds `maxNestingDepth` of scanner.go. -/
def maxNestingDepth : Nat := 10000

/-- A value has been read completely: hand it to the innermost open container,
or finish when there is none (the top-level value). -/
def deliver (stack : List Frame) (v : JValue) : Scan :=
  match stack with
  | [] => Scan.done v
  | Frame.arrayValue es :: st => Scan.more ⟨Step.endValue, Frame.arrayValue (es ++ [v]) :: st⟩
  | Frame.objectKey ms _ :: st =>
    match v with
    | JValue.str k => Scan.more ⟨Step.endValue, Frame.objectKey ms (some k) :: st⟩
    | _ => Scan.fail
  | Frame.objectValue ms (some k) :: st =>
    Scan.more ⟨Step.endValue, Frame.objectValue (ms ++ [(k, v)]) none :: st⟩
  | Frame.objectValue _ none :: _ => Scan.fail

/-- Embeds `stateEndValue`: after a value inside a container. -/
def stateEndValue (stack : List Frame) (c : Char) : Scan :=
  match stack with
  | [] => Scan.fail
  | f :: st =>
    if isSpace c then Scan.more ⟨Step.endValue, f :: st⟩
    else
      match f with
      | Frame.objectKey ms (some k) =>
        if c = ':' then Scan.more ⟨Step.beginValue, Frame.objectValue ms (some k) :: st⟩
        else Scan.fail
      | Frame.objectKey _ none => Scan.fail
      | Frame.objectValue ms none =>
        if c = ',' then Scan.more ⟨Step.beginString, Frame.objectKey ms none :: st⟩
        else if c = '\x7d' then deliver st (JValue.obj ms)
        else Scan.fail
      | Frame.objectValue _ (some _) => Scan.fail
      | Frame.arrayValue es =>
        if c = ',' then Scan.more ⟨Step.beginValue, Frame.arrayValue es :: st⟩
        else if c = ']' then deliver st (JValue.arr es)
        else Scan.fail

/-- A number literal ends at the first character that cannot continue it; that
character is then read as the one after the value. -/
def endNumber (stack : List Frame) (raw : List Char) (c : Char) : Scan :=
  match deliver stack (JValue.num raw) with
  | Scan.more s => stateEndValue s.parseState c
  | r => r

/-- Embeds `pushParseState`: open a container unless the nesting is too deep. -/
def pushParseState (stack : List Frame) (f : Frame) (next : Step) : Scan :=
  if (f :: stack).length ≤ maxNestingDepth then Scan.more ⟨next, f :: stack⟩
  else Scan.fail

/-- Embeds `stateBeginValue`. -/
def stateBeginValue (stack : List Frame) (c : Char) : Scan :=
  if isSpace c then Scan.more ⟨Step.beginValue, stack⟩
  else if c = '\x7b' then pushParseState stack (Frame.objectKey [] none) Step.beginStringOrEmpty
  else if c = '[' then pushParseState stack (Frame.arrayValue []) Step.beginValueOrEmpty
  else if c = '"' then Scan.more ⟨Step.inString [], stack⟩
  else if c = '-' then Scan.more ⟨Step.neg [c], stack⟩
  else if c = '0' then Scan.more ⟨Step.zero [c], stack⟩
  else if c = 't' then Scan.more ⟨Step.inLiteral ['r', 'u', 'e'] (JValue.bool true), stack⟩
  else if c = 'f' then
    Scan.more ⟨Step.inLiteral ['a', 'l', 's', 'e'] (JValue.bool false), stack⟩
  else if c = 'n' then Scan.more ⟨Step.inLiteral ['u', 'l', 'l'] JValue.null, stack⟩
  else if isDigit19 c then Scan.more ⟨Step.one [c], stack⟩
  else Scan.fail

/-- Embeds `stateBeginString`. -/
def stateBeginString (stack : List Frame) (c : Char) : Scan :=
  if isSpace c then Scan.more ⟨Step.beginString, stack⟩
  else if c = '"' then Scan.more ⟨Step.inString [], stack⟩
  else Scan.fail

/-- Embeds `state0`: after the integer part of a number. -/
def state0 (stack : List Frame) (raw : List Char) (c : Char) : Scan :=
  if c = '.' then Scan.more ⟨Step.dot (raw ++ [c]), stack⟩
  else if c = 'e' || c = 'E' then Scan.more ⟨Step.exp (raw ++ [c]), stack⟩
  else endNumber stack raw c

/-- Embeds `stateESign`. -/
def stateESign (stack : List Frame) (raw : List Char) (c : Char) : Scan :=
  if isDigit c then Scan.more ⟨Step.exp0 (raw ++ [c]), stack⟩ else Scan.fail

/-- One transition of the scanner (`s.step(s, c)`). -/
def Scanner.feed (s : Scanner) (c : Char) : Scan :=
  let stack := s.parseState
  match s.step with
  | Step.beginValue => stateBeginValue stack c
  | Step.beginValueOrEmpty =>
    if isSpace c then Scan.more s
    else if c = ']' then stateEndValue stack c
    else stateBeginValue stack c
  | Step.beginStringOrEmpty =>
    if isSpace c then Scan.more s
    else if c = '\x7d' then
      match stack with
      | Frame.objectKey ms _ :: st => stateEndValue (Frame.objectValue ms none :: st) c
      | _ => Scan.fail
    else stateBeginString stack c
  | Step.beginString => stateBeginString stack c
  | Step.endValue => stateEndValue stack c
  | Step.inString raw =>
    if c = '"' then deliver stack (JValue.str (unquote raw))
    else if c = '\\' then Scan.more ⟨Step.inStringEsc (raw ++ [c]), stack⟩
    else if c.toNat < 0x20 then Scan.fail
    else Scan.more ⟨Step.inString (raw ++ [c]), stack⟩
  | Step.inStringEsc raw =>
    if c = 'b' || c = 'f' || c = 'n' || c = 'r' || c = 't' || c = '\\' || c = '/' || c = '"' then
      Scan.more ⟨Step.inString (raw ++ [c]), stack⟩
    else if c = 'u' then Scan.more ⟨Step.inStringEscU (raw ++ [c]) 0, stack⟩
    else Scan.fail
  | Step.inStringEscU raw seen =>
    if isHex c then
      if seen < 3 then Scan.more ⟨Step.inStringEscU (raw ++ [c]) (seen + 1), stack⟩
      else Scan.more ⟨Step.inString (raw ++ [c]), stack⟩
    else Scan.fail
  | Step.neg raw =>
    if c = '0' then Scan.more ⟨Step.zero (raw ++ [c]), stack⟩
    else if isDigit19 c then Scan.more ⟨Step.one (raw ++ [c]), stack⟩
    else Scan.fail
  | Step.zero raw => state0 stack raw c
  | Step.one raw =>
    if isDigit c then Scan.more ⟨Step.one (raw ++ [c]), stack⟩ else state0 stack raw c
  | Step.dot raw =>
    if isDigit c then Scan.more ⟨Step.dot0 (raw ++ [c]), stack⟩ else Scan.fail
  | Step.dot0 raw =>
    if isDigit c then Scan.more ⟨Step.dot0 (raw ++ [c]), stack⟩
    else if c = 'e' || c = 'E' then Scan.more ⟨Step.exp (raw ++ [c]), stack⟩
    else endNumber stack raw c
  | Step.exp raw =>
    if c = '+' || c = '-' then Scan.more ⟨Step.expSign (raw ++ [c]), stack⟩
    else stateESign stack raw c
  | Step.expSign raw => stateESign stack raw c
  | Step.exp0 raw =>
    if isDigit c then Scan.more ⟨Step.exp0 (raw ++ [c]), stack⟩ else endNumber stack raw c
  | Step.inLiteral rest v =>
    match rest with
    | [] => Scan.fail
    | [x] => if c = x then deliver stack v else Scan.fail
    | x :: more => if c = x then Scan.more ⟨Step.inLiteral more v, stack⟩ else Scan.fail

/-- The loop of `Decoder.readValue`: feed the input until the first top-level
value is complete; whatever follows it is left unread.  At the end of the input
a number may still be completed by an invented space; otherwise the result is
`io.EOF` when only white space was read and `io.ErrUnexpectedEOF` when not. -/
def scanFrom (s : Scanner) (sawNonSpace : Bool) : List Char → Except DecodeError JValue
  | [] =>
    match s.feed ' ' with
    | Scan.done v => Except.ok v
    | _ => Except.error (if sawNonSpace then DecodeError.unexpectedEOF else DecodeError.eof)
  | c :: rest =>
    match s.feed c with
    | Scan.done v => Except.ok v
    | Scan.fail => Except.error DecodeError.malformed
    | Scan.more s1 => scanFrom s1 (sawNonSpace || !isSpace c) rest

/-- Embeds `Decoder.readValue` on a fresh decoder: the first JSON value of the body. -/
def readValue (body : String) : Except DecodeError JValue :=
  scanFrom ⟨Step.beginValue, []⟩ false body.data

/-! ## encoding/json: decoding into `Answer` -/

/-- The request payload (`type Answer struct`). -/
structure Answer where
  ID : String
  Answer_1 : String
  Answer_2 : String
  Answer_3 : String
  deriving DecidableEq, Repr

/-- The zero value, `var answer Answer`. -/
def Answer.zero : Answer := ⟨"", "", "", ""⟩

/-- The four fields of `Answer`. -/
inductive Field where
  | id : Field
  | answer1 : Field
  | answer2 : Field
  | answer3 : Field
  deriving DecidableEq, Repr

/-- The JSON name of a field, from its struct tag. -/
def Field.name : Field → String
  | Field.id => "id"
  | Field.answer1 => "answer1"
  | Field.answer2 => "answer2"
  | Field.answer3 => "answer3"

/-- The fields in declaration order (`cachedTypeFields`). -/
def Field.all : List Field := [Field.id, Field.answer1, Field.answer2, Field.answer3]

/-- Embeds `v.SetString(s)` on one field. -/
def Answer.set (a : Answer) (f : Field) (s : String) : Answer :=
  match f with
  | Field.id => { a with ID := s }
  | Field.answer1 => { a with Answer_1 := s }
  | Field.answer2 => { a with Answer_2 := s }
  | Field.answer3 => { a with Answer_3 := s }

/-- Embeds `foldRune` of encoding/json: the smallest rune of the simple case-folding
orbit.  An ASCII letter folds to its capital, and so do the two other runes
whose orbit holds an ASCII letter, U+017F (long s) and U+212A (Kelvin sign).
Every other rune folds to a rune outside ASCII; it is left as it is here, which
gives the same answer whenever a name is compared with an ASCII field name. -/
def foldRune (c : Char) : Char :=
  if 'a'.toNat ≤ c.toNat && c.toNat ≤ 'z'.toNat then Char.ofNat (c.toNat - 32)
  else if c = Char.ofNat 0x17F then 'S'
  else if c = Char.ofNat 0x212A then 'K'
  else c

/-- Embeds `foldName`: the key under which a name is looked up ignoring case. -/
def foldName (s : String) : List Char := s.data.map foldRune

/-- The field an object key is decoded into (`decodeState.object`): the field
with exactly that name, else the field with that name ignoring case, else
none and the member is skipped. -/
def fieldOf (key : String) : Option Field :=
  match Field.all.find? (fun f => decide (f.name = key)) with
  | some f => some f
  | none => Field.all.find? (fun f => decide (foldName f.name = foldName key))

/-- The state of an unmarshal run (`decodeState`): the target and the first
type error met so far. -/
structure decodeState where
  answer : Answer
  savedError : Option DecodeError

/-- Embeds `decodeState.saveError`: keep the earliest error. -/
def decodeState.saveError (d : decodeState) (e : DecodeError) : decodeState :=
  match d.savedError with
  | none => { d with savedError := some e }
  | some _ => d

/-- Embeds `decodeState.value` with a string field as target: a string is stored,
`null` leaves the field alone, anything else is a type error and the field is
skipped. -/
def decodeState.value (d : decodeState) (f : Field) (v : JValue) : decodeState :=
  match v with
  | JValue.str s => { d with answer := d.answer.set f s }
  | JValue.null => d
  | JValue.bool _ => d.saveError (DecodeError.unmarshalType "bool")
  | JValue.num _ => d.saveError (DecodeError.unmarshalType "number")
  | JValue.arr _ => d.saveError (DecodeError.unmarshalType "array")
  | JValue.obj _ => d.saveError (DecodeError.unmarshalType "object")

/-- One round of the loop in `decodeState.object`: one member of the object. -/
def decodeState.member (d : decodeState) (m : String × JValue) : decodeState :=
  match fieldOf m.1 with
  | some f => d.value f m.2
  | none => d

/-- Embeds `decodeState.unmarshal` into `*Answer`: an object is decoded member by
member in input order, `null` is a no-op, any other value is a type error. -/
def unmarshal (v : JValue) (a : Answer) : Answer × Option DecodeError :=
  match v with
  | JValue.obj ms =>
    let d := ms.foldl decodeState.member ⟨a, none⟩
    (d.answer, d.savedError)
  | JValue.null => (a, none)
  | JValue.bool _ => (a, some (DecodeError.unmarshalType "bool"))
  | JValue.num _ => (a, some (DecodeError.unmarshalType "number"))
  | JValue.str _ => (a, some (DecodeError.unmarshalType "string"))
  | JValue.arr _ => (a, some (DecodeError.unmarshalType "array"))

/-- Embeds `json.NewDecoder(body).Decode(&a)`: the target after the call and the error
returned.  A body without a complete JSON value leaves the target untouched. -/
def Decode (body : String) (a : Answer) : Answer × Option DecodeError :=
  match readValue body with
  | Except.error e => (a, some e)
  | Except.ok v => unmarshal v a

/-! ## encoding/json: encoding -/

/-- A lower-case hexadecimal digit. -/
def hexDigit (n : Nat) : Char :=
  if n % 16 < 10 then Char.ofNat ('0'.toNat + n % 16) else Char.ofNat ('a'.toNat + (n % 16 - 10))

/-- How `appendString` writes one character with HTML escaping on, the
encoder's default. -/
def encodeChar (c : Char) : List Char :=
  if c = '"' || c = '\\' then ['\\', c]
  else if c = Char.ofNat 8 then ['\\', 'b']
  else if c = Char.ofNat 12 then ['\\', 'f']
  else if c = '\n' then ['\\', 'n']
  else if c = '\r' then ['\\', 'r']
  else if c = '\t' then ['\\', 't']
  else if c.toNat < 0x20 || c = '<' || c = '>' || c = '&' then
    ['\\', 'u', '0', '0', hexDigit (c.toNat / 16), hexDigit c.toNat]
  else if c = Char.ofNat 0x2028 then ['\\', 'u', '2', '0', '2', '8']
  else if c = Char.ofNat 0x2029 then ['\\', 'u', '2', '0', '2', '9']
  else [c]

/-- The JSON string literal for a string (`json.Marshal` of a string). -/
def marshalString (s : String) : String :=
  String.mk ('"' :: (s.data.flatMap encodeChar ++ ['"']))

/-! ## net/http -/

/-- An incoming request: method, URL path, headers and body. -/
structure Request where
  Method : String
  Path : String
  Header : List (String × String)
  Body : String

/-- The response being built.  `status` is none until the header is written. -/
structure ResponseWriter where
  header : List (String × String)
  status : Option Nat
  body : String
  deriving DecidableEq, Repr

/-- The writer the server hands to a handler. -/
def ResponseWriter.fresh : ResponseWriter := ⟨[], none, ""⟩

/-- Embeds `w.Header().Set(key, value)`. -/
def ResponseWriter.SetHeader (w : ResponseWriter) (key value : String) : ResponseWriter :=
  { w with header := w.header.filter (fun h => !decide (h.1 = key)) ++ [(key, value)] }

/-- Embeds `w.WriteHeader(code)`; a second call is ignored. -/
def ResponseWriter.WriteHeader (w : ResponseWriter) (code : Nat) : ResponseWriter :=
  match w.status with
  | none => { w with status := some code }
  | some _ => w

/-- Embeds `w.Write(data)`; the first write sends status 200 when none was sent. -/
def ResponseWriter.Write (w : ResponseWriter) (data : String) : ResponseWriter :=
  let w1 := w.WriteHeader 200
  { w1 with body := w1.body ++ data }

/-- The status code the client receives; 200 when the handler sent none. -/
def ResponseWriter.code (w : ResponseWriter) : Nat := w.status.getD 200

/-- The value of a response header. -/
def ResponseWriter.get (w : ResponseWriter) (key : String) : Option String :=
  (w.header.find? (fun h => decide (h.1 = key))).map Prod.snd

/-- Embeds `http.StatusOK`. -/
def StatusOK : Nat := 200

/-- Embeds `http.StatusInternalServerError`. -/
def StatusInternalServerError : Nat := 500

/-- Embeds `http.StatusServiceUnavailable`. -/
def StatusServiceUnavailable : Nat := 503

/-- Embeds `http.Error`: plain-text headers, the status, then the message printed
with `fmt.Fprintln`, that is followed by a line feed. -/
def Error (w : ResponseWriter) (error : String) (code : Nat) : ResponseWriter :=
  (((w.SetHeader "Content-Type" "text/plain; charset=utf-8").SetHeader
    "X-Content-Type-Options" "nosniff").WriteHeader code).Write (error ++ "\n")

/-- Embeds `json.NewEncoder(w).Encode(s)` for a string: one write of the JSON literal
followed by a line feed. -/
def EncodeString (w : ResponseWriter) (s : String) : ResponseWriter :=
  w.Write (marshalString s ++ "\n")

/-! ## The MongoDB driver -/

/-- The document handed to `InsertOne`, a `bson.M` whose values are strings;
the keys are listed in the order of the map literal. -/
abbrev BsonM := List (String × String)

/-- A driver-generated identifier (`primitive.ObjectID`, 12 bytes). -/
structure ObjectID where
  value : Nat
  deriving DecidableEq, Repr

/-- Embeds `ObjectID.Hex`: 24 lower-case hexadecimal digits. -/
def ObjectID.Hex (id : ObjectID) : String :=
  String.mk ((List.range 24).map (fun i => hexDigit (id.value / 16 ^ (23 - i))))

/-- A call made on the shared client. -/
inductive DriverCall where
  | ping : DriverCall
  | insertOne (database collection : String) (doc : BsonM) : DriverCall
  deriving DecidableEq, Repr

/-- A record held by the store. -/
structure Stored where
  database : String
  collection : String
  id : ObjectID
  doc : BsonM
  deriving DecidableEq, Repr

/-- The shared `*mongo.Client` together with the store behind it.  The
environment decides the outcome of every call: `fault n` is the error reported
for the call number `n` (none when it succeeds; a timeout is an error like any
other), `applied n` says whether the server carried out the write of call `n`
although an error is reported for it (a write-concern error, or a deadline that
passes after the write was sent), and `newObjectID n` is the identifier
generated for it.  `calls` lists the calls made so far and `records` the
documents the store holds. -/
structure Mongo where
  fault : Nat → Option String
  applied : Nat → Bool
  newObjectID : Nat → ObjectID
  calls : List DriverCall
  records : List Stored

/-- Embeds `client.Ping(ctx, nil)`: the error, if any. -/
def Mongo.Ping (m : Mongo) : Option String × Mongo :=
  (m.fault m.calls.length, { m with calls := m.calls ++ [DriverCall.ping] })

/-- Embeds `client.Database(db).Collection(coll).InsertOne(ctx, doc)`: on success
the document is stored under a new identifier, which is returned as
`InsertedID`.  When an error is reported no identifier is returned; the
document is in the store all the same when the server had applied the write. -/
def Mongo.InsertOne (m : Mongo) (database collection : String) (doc : BsonM) :
    Except String ObjectID × Mongo :=
  let calls := m.calls ++ [DriverCall.insertOne database collection doc]
  let id := m.newObjectID m.calls.length
  let stored := m.records ++ [⟨database, collection, id, doc⟩]
  match m.fault m.calls.length with
  | some err =>
    (Except.error err,
      { m with calls := calls, records := if m.applied m.calls.length then stored else m.records })
  | none => (Except.ok id, { m with calls := calls, records := stored })

/-! ## The handlers of main.go -/

/-- The process state the handlers share: the global `client` and what has
been written to the log. -/
structure World where
  client : Mongo
  log : List String

/-- Embeds `HealthHandler`, the liveness probe. -/
def HealthHandler (w : ResponseWriter) (_r : Request) (σ : World) : ResponseWriter × World :=
  ((w.WriteHeader StatusOK).Write "OK", σ)

/-- Embeds `ReadyHandler`, the readiness probe. -/
def ReadyHandler (w : ResponseWriter) (_r : Request) (σ : World) : ResponseWriter × World :=
  match σ.client.Ping with
  | (some _, client) =>
    (Error w "Database not ready" StatusServiceUnavailable,
      { client := client, log := σ.log ++ ["Readiness check failed: MongoDB not reachable"] })
  | (none, client) => ((w.WriteHeader StatusOK).Write "READY", { σ with client := client })

/-- The text served by `GetQuestion`. -/
def question : String := "What is your favorite programming language framework?"

/-- Embeds `GetQuestion`. -/
def GetQuestion (w : ResponseWriter) (_r : Request) (σ : World) : ResponseWriter × World :=
  (EncodeString (w.SetHeader "Content-Type" "application/json") question, σ)

/-- The `bson.M` literal built by `SubmitAnswer`. -/
def answerDoc (answer : Answer) : BsonM :=
  [("Answer1", answer.Answer_1), ("Answer2", answer.Answer_2), ("Answer3", answer.Answer_3)]

/-- Embeds `SubmitAnswer`.  The error of `Decode` is dropped (`_ =`). -/
def SubmitAnswer (w : ResponseWriter) (r : Request) (σ : World) : ResponseWriter × World :=
  let answer := (Decode r.Body Answer.zero).1
  let log := σ.log ++ ["answer.Answer_1: " ++ answer.Answer_1,
    "answer.Answer_2: " ++ answer.Answer_2, "answer.Answer_3: " ++ answer.Answer_3]
  match σ.client.InsertOne "surveyDB" "answers" (answerDoc answer) with
  | (Except.error err, client) =>
    (Error w "Database error" StatusInternalServerError,
      { client := client, log := log ++ [err] })
  | (Except.ok id, client) => (EncodeString w id.Hex, { client := client, log := log })

/-! ## gorilla/mux -/

/-- The four handler functions of main.go. -/
inductive Handler where
  | GetQuestion : Handler
  | SubmitAnswer : Handler
  | HealthHandler : Handler
  | ReadyHandler : Handler
  deriving DecidableEq, Repr

/-- A route matcher: the path template of `HandleFunc` (the templates of
main.go have no variables, so the compiled pattern `^template$` matches the
URL path exactly when the two are equal) or the method list of `Methods`. -/
inductive Matcher where
  | path (template : String) : Matcher
  | methods (allowed : List String) : Matcher
  deriving DecidableEq, Repr

/-- Embeds `matcher.Match(req, match)`. -/
def Matcher.Match (m : Matcher) (req : Request) : Bool :=
  match m with
  | Matcher.path template => decide (req.Path = template)
  | Matcher.methods allowed => decide (req.Method ∈ allowed)

/-- A registered route. -/
structure Route where
  matchers : List Matcher
  handler : Option Handler
  deriving DecidableEq, Repr

/-- Embeds `ErrMethodMismatch` and `ErrNotFound`. -/
inductive MatchErr where
  | methodMismatch : MatchErr
  | notFound : MatchErr
  deriving DecidableEq, Repr

/-- The part of `RouteMatch` the router looks at. -/
structure RouteMatch where
  Handler : Option Handler
  MatchErr : Option MatchErr
  deriving DecidableEq, Repr

/-- The loop over the matchers in `Route.Match`; `matchErr` is the local
variable of that name.  The result is none when the route is given up at once
(`return false` inside the loop), else the local error after the loop. -/
def matchAll (req : Request) :
    List Matcher → Option MatchErr → RouteMatch → Option (Option MatchErr) × RouteMatch
  | [], matchErr, m => (some matchErr, m)
  | x :: rest, matchErr, m =>
    if x.Match req then
      matchAll req rest matchErr
        (if m.MatchErr = some MatchErr.methodMismatch then { m with MatchErr := none } else m)
    else
      match x with
      | Matcher.methods _ => matchAll req rest (some MatchErr.methodMismatch) m
      | Matcher.path _ =>
        (none, if m.MatchErr = some MatchErr.notFound then { m with MatchErr := none } else m)

/-- Embeds `Route.Match` (gorilla/mux v1.8.1). -/
def Route.Match (r : Route) (req : Request) (m : RouteMatch) : Bool × RouteMatch :=
  match matchAll req r.matchers none m with
  | (none, m1) => (false, m1)
  | (some (some e), m1) => (false, { m1 with MatchErr := some e })
  | (some none, m1) =>
    let m2 : RouteMatch :=
      if m1.MatchErr = some MatchErr.methodMismatch ∧ r.handler ≠ none then
        { Handler := r.handler, MatchErr := none }
      else m1
    (true, { m2 with Handler := if m2.Handler = none then r.handler else m2.Handler })

/-- A router: its routes in registration order. -/
structure Router where
  routes : List Route
  deriving DecidableEq, Repr

/-- Embeds `mux.NewRouter()`. -/
def NewRouter : Router := ⟨[]⟩

/-- Embeds `router.HandleFunc(path, f).Methods(methods...)`. -/
def Router.HandleFunc (r : Router) (path : String) (f : Handler) (methods : List String) :
    Router :=
  ⟨r.routes ++ [⟨[Matcher.path path, Matcher.methods methods], some f⟩]⟩

/-- The loop over the routes in `Router.Match`: the first route that matches
ends it. -/
def matchRoutes (req : Request) : List Route → RouteMatch → Bool × RouteMatch
  | [], m => (false, m)
  | r :: rest, m =>
    match r.Match req m with
    | (true, m1) => (true, m1)
    | (false, m1) => matchRoutes req rest m1

/-- Embeds `Router.Match` for a router without `NotFoundHandler` and
`MethodNotAllowedHandler`, as `main` builds it. -/
def Router.Match (r : Router) (req : Request) : Bool × RouteMatch :=
  match matchRoutes req r.routes ⟨none, none⟩ with
  | (true, m) => (true, m)
  | (false, m) =>
    if m.MatchErr = some MatchErr.methodMismatch then (false, m)
    else (false, { m with MatchErr := some MatchErr.notFound })

/-- The process environment, as `os.LookupEnv` reads it: the value of a
variable when it is set. -/
abbrev Env := String → Option String

/-- Embeds `getEnv`. -/
def getEnv (env : Env) (key fallback : String) : String :=
  match env key with
  | some value => value
  | none => fallback

/-- The router `main` builds. -/
def mainRouter : Router :=
  (((NewRouter.HandleFunc "/" Handler.GetQuestion ["GET"]).HandleFunc
    "/" Handler.SubmitAnswer ["POST"]).HandleFunc
    "/health" Handler.HealthHandler ["GET"]).HandleFunc
    "/ready" Handler.ReadyHandler ["GET"]

/-- What the process does at start-up, in order. -/
inductive Event where
  | connect (uri : String) : Event
  | ping : Event
  | log (line : String) : Event
  | handleFunc (path : String) (f : Handler) (methods : List String) : Event
  | listenAndServe (addr : String) (router : Router) : Event
  | exit (code : Nat) : Event
  deriving DecidableEq, Repr

/-- What the outside world answers at start-up: the environment variables, the
error of `mongo.Connect`, the error of the first `Ping`, and the error with
which `http.ListenAndServe` returns (none while it keeps serving). -/
structure Boot where
  env : Env
  connectErr : Option String
  pingErr : Option String
  serveErr : Option String

/-- The value of `serverPort` in `main`. -/
def serverPort (env : Env) : String := getEnv env "SERVER_PORT" "8080"

/-- The value of `mongoURI` in `main`. -/
def mongoURI (env : Env) : String := getEnv env "MONGO_URI" "mongodb://mongo-local:27017"

/-- The tail of `main` from `mux.NewRouter()` on: the four routes are
registered, then the server is started with the router they make up. -/
def mainServe (b : Boot) : List Event :=
  [Event.handleFunc "/" Handler.GetQuestion ["GET"],
    Event.handleFunc "/" Handler.SubmitAnswer ["POST"],
    Event.handleFunc "/health" Handler.HealthHandler ["GET"],
    Event.handleFunc "/ready" Handler.ReadyHandler ["GET"],
    Event.log ("Starting server on port " ++ serverPort b.env ++ "...\n"),
    Event.listenAndServe (":" ++ serverPort b.env) mainRouter] ++
  match b.serveErr with
  | some err => [Event.log err, Event.exit 1]
  | none => []

/-- Embeds `main`: the trace of the start-up.  `log.Fatal` logs and exits with
status 1. -/
def main (b : Boot) : List Event :=
  Event.connect (mongoURI b.env) ::
  match b.connectErr with
  | some err => [Event.log ("Failed to connect to MongoDB:" ++ err), Event.exit 1]
  | none =>
    Event.ping ::
    ((match b.pingErr with
      | some _ => [Event.log "MongoDB not reachable at startup, readiness probe will handle it"]
      | none => []) ++
    Event.log "Connected to MongoDB successfully" :: mainServe b)

/-! ## What a body provides -/

/-- Reading one field of an `Answer`. -/
def Answer.get (a : Answer) : Field → String
  | Field.id => a.ID
  | Field.answer1 => a.Answer_1
  | Field.answer2 => a.Answer_2
  | Field.answer3 => a.Answer_3

/-- The values of the members of a JSON object that go by the name of field
`f`, in input order; names are compared as the decoder compares them, ignoring
case. -/
def named (f : Field) (ms : List (String × JValue)) : List JValue :=
  (ms.filter (fun m => decide (fieldOf m.1 = some f))).map Prod.snd

/-- What a JSON object provides for field `f`: the string held by the last
member that goes by the field's name, the empty string when there is none. -/
def provided (f : Field) (ms : List (String × JValue)) : String :=
  match (named f ms).getLast? with
  | some (JValue.str s) => s
  | _ => ""

/-- Whether a member goes by the name of one of the three answer fields. -/
def isAnswerMember (m : String × JValue) : Bool :=
  match fieldOf m.1 with
  | some Field.answer1 => true
  | some Field.answer2 => true
  | some Field.answer3 => true
  | _ => false

/-- The members of a JSON object that go by the name of an answer field, in
input order: the object without its `id` members and without any member the
decoder does not know. -/
def answerMembers (ms : List (String × JValue)) : List (String × JValue) :=
  ms.filter isAnswerMember

/-- Two member lists that differ at most in the values of their `id`
members. -/
def sameButId (ms ms' : List (String × JValue)) : Prop :=
  List.Forall₂ (fun m m' => m.1 = m'.1 ∧ (m.1 ≠ "id" → m.2 = m'.2)) ms ms'

/-! ## Sample inputs -/

/-- A store that accepts every call. -/
def storeUp : Mongo := ⟨fun _ => none, fun _ => true, fun n => ⟨n + 255⟩, [], []⟩

/-- A store that cannot be reached: every call fails. -/
def storeDown : Mongo :=
  ⟨fun _ => some "server selection error", fun _ => false, fun n => ⟨n⟩, [], []⟩

/-- A store that carries out every write but reports a deadline error for
it. -/
def storeLate : Mongo :=
  ⟨fun _ => some "context deadline exceeded", fun _ => true, fun n => ⟨n⟩, [], []⟩

/-- A process state around a store, with an empty log. -/
def worldOf (m : Mongo) : World := ⟨m, []⟩

/-- A request with the given method, path and body, and no headers. -/
def request (method path body : String) : Request := ⟨method, path, [], body⟩

/-- An environment in which no variable is set. -/
def emptyEnv : Env := fun _ => none

/-- Feeding the scanner a run of characters none of which completes the
top-level value: the scanner after the run, none when a character ends the
value or is refused. -/
def feedRun (s : Scanner) : List Char → Option Scanner
  | [] => some s
  | c :: rest =>
    match s.feed c with
    | Scan.more s1 => feedRun s1 rest
    | _ => none

/-- The text of 10000 empty arrays nested in one another, followed by
`rest`. -/
def deepArrays (rest : List Char) : List Char :=
  List.replicate 10000 '[' ++ (List.replicate 10000 ']' ++ rest)

/-- The body `{"id":[[..]],"answer1":"x"}` whose `id` holds 10000 nested
arrays. -/
def deepIdBody : String :=
  String.mk ("\x7b\"id\":".data ++ deepArrays ",\"answer1\":\"x\"\x7d".data)

/-- The body `{"answer1":"x","extra":[[..]]}` whose `extra` holds 10000 nested
arrays. -/
def deepExtraBody : String :=
  String.mk ("\x7b\"answer1\":\"x\",\"extra\":".data ++ deepArrays ['\x7d'])

/-! ## Basic facts -/

theorem empty_append (s : String) : "" ++ s = s := by
  cases s
  rfl

theorem fresh_write (data : String) :
    ResponseWriter.fresh.Write data = ⟨[], some 200, data⟩ := by
  simp [ResponseWriter.Write, ResponseWriter.WriteHeader, ResponseWriter.fresh, empty_append]

theorem fresh_error (msg : String) (code : Nat) :
    Error ResponseWriter.fresh msg code =
      ⟨[("Content-Type", "text/plain; charset=utf-8"), ("X-Content-Type-Options", "nosniff")],
        some code, msg ++ "\n"⟩ := by
  simp [Error, ResponseWriter.Write, ResponseWriter.WriteHeader, ResponseWriter.SetHeader,
    ResponseWriter.fresh, empty_append]

/-! ## The probes and the question -/

/-- C5: for every request and every state of the connection, `HealthHandler`
answers status 200 with body exactly `OK`, and it makes no call on the database
connection: the process state, the list of driver calls included, is left as it
was. -/
theorem HealthHandler_always_ok (r : Request) (σ : World) :
    (HealthHandler ResponseWriter.fresh r σ).1.code = 200 ∧
    (HealthHandler ResponseWriter.fresh r σ).1.body = "OK" ∧
    (HealthHandler ResponseWriter.fresh r σ).2.client.calls = σ.client.calls ∧
    (HealthHandler ResponseWriter.fresh r σ).2 = σ := by
  simp [HealthHandler, ResponseWriter.Write, ResponseWriter.WriteHeader, ResponseWriter.fresh,
    ResponseWriter.code, StatusOK, empty_append]

/-- C6, as stated, fails: the body `GetQuestion` sends is not the bare JSON
string literal of the question; `Encoder.Encode` ends it with a line feed. -/
theorem GetQuestion_body_not_bare_literal :
    (GetQuestion ResponseWriter.fresh (request "GET" "/" "") (worldOf storeUp)).1.body ≠
      "\"What is your favorite programming language framework?\"" := by
  decide

/-- C6, amended: for every request, `GetQuestion` answers status 200 with
`Content-Type: application/json` and a body that is the JSON string literal of
the fixed question text followed by one line feed, which read back as JSON is
the question text; any two requests get the same response, and the process
state is not touched. -/
theorem GetQuestion_fixed_response (r r' : Request) (σ σ' : World) :
    (GetQuestion ResponseWriter.fresh r σ).1.code = 200 ∧
    (GetQuestion ResponseWriter.fresh r σ).1.get "Content-Type" = some "application/json" ∧
    (GetQuestion ResponseWriter.fresh r σ).1.body =
      "\"What is your favorite programming language framework?\"\n" ∧
    readValue (GetQuestion ResponseWriter.fresh r σ).1.body =
      Except.ok (JValue.str "What is your favorite programming language framework?") ∧
    (GetQuestion ResponseWriter.fresh r' σ').1 = (GetQuestion ResponseWriter.fresh r σ).1 ∧
    (GetQuestion ResponseWriter.fresh r σ).2 = σ := by
  have hbody : (GetQuestion ResponseWriter.fresh r σ).1.body =
      "\"What is your favorite programming language framework?\"\n" := by
    have h : marshalString question ++ "\n" =
        "\"What is your favorite programming language framework?\"\n" := by decide
    simp [GetQuestion, EncodeString, ResponseWriter.Write, ResponseWriter.WriteHeader,
      ResponseWriter.SetHeader, ResponseWriter.fresh, empty_append, h]
  refine ⟨?_, ?_, hbody, ?_, rfl, rfl⟩
  rotate_left 2
  · rw [hbody]
    rfl
  · simp [GetQuestion, EncodeString, ResponseWriter.Write, ResponseWriter.WriteHeader,
      ResponseWriter.SetHeader, ResponseWriter.fresh, ResponseWriter.code]
  · simp [GetQuestion, EncodeString, ResponseWriter.Write, ResponseWriter.WriteHeader,
      ResponseWriter.SetHeader, ResponseWriter.get, ResponseWriter.fresh]

/-- C4, as stated, fails: when the ping fails the body of the 503 response is
not the bare text `Database not ready`; `http.Error` ends it with a line
feed. -/
theorem ReadyHandler_body_not_bare_text :
    storeDown.fault storeDown.calls.length ≠ none ∧
    (ReadyHandler ResponseWriter.fresh (request "GET" "/ready" "") (worldOf storeDown)).1.code
      = 503 ∧
    (ReadyHandler ResponseWriter.fresh (request "GET" "/ready" "") (worldOf storeDown)).1.body
      ≠ "Database not ready" := by
  decide

/-- C4, amended: for every request, `ReadyHandler` pings the shared connection
once and stores nothing; it answers status 200 with body `READY` if and only if
that ping succeeds; when the ping fails it answers status 503 with a plain-text
body that is `Database not ready` followed by one line feed. -/
theorem ReadyHandler_follows_ping (r : Request) (σ : World) :
    (ReadyHandler ResponseWriter.fresh r σ).2.client.calls =
      σ.client.calls ++ [DriverCall.ping] ∧
    (ReadyHandler ResponseWriter.fresh r σ).2.client.records = σ.client.records ∧
    (((ReadyHandler ResponseWriter.fresh r σ).1.code = 200 ∧
        (ReadyHandler ResponseWriter.fresh r σ).1.body = "READY") ↔
      σ.client.fault σ.client.calls.length = none) ∧
    (σ.client.fault σ.client.calls.length ≠ none →
      (ReadyHandler ResponseWriter.fresh r σ).1.code = 503 ∧
      (ReadyHandler ResponseWriter.fresh r σ).1.get "Content-Type" =
        some "text/plain; charset=utf-8" ∧
      (ReadyHandler ResponseWriter.fresh r σ).1.body = "Database not ready\n") := by
  have hline : "Database not ready" ++ "\n" = "Database not ready\n" := by decide
  cases hping : σ.client.fault σ.client.calls.length with
  | none =>
    simp [ReadyHandler, Mongo.Ping, hping, fresh_write, ResponseWriter.WriteHeader,
      ResponseWriter.Write, ResponseWriter.fresh, ResponseWriter.code, StatusOK, empty_append]
  | some err =>
    simp [ReadyHandler, Mongo.Ping, hping, fresh_error, ResponseWriter.code,
      ResponseWriter.get, StatusServiceUnavailable, hline]

/-- The amended C4 at a store that is down. -/
theorem ReadyHandler_follows_ping_witness :
    (ReadyHandler ResponseWriter.fresh (request "GET" "/ready" "") (worldOf storeDown)).1.code
      = 503 ∧
    (ReadyHandler ResponseWriter.fresh (request "GET" "/ready" "") (worldOf storeDown)).1.body
      = "Database not ready\n" :=
  have h := (ReadyHandler_follows_ping (request "GET" "/ready" "") (worldOf storeDown)).2.2.2
    (by decide)
  ⟨h.1, h.2.2⟩

/-! ## Store failure -/

/-- C3, as stated, fails twice.  With the store refusing the insert the status
is 500, but the body is not the bare text `Database error`; `http.Error` ends
it with a line feed.  And an insert can report an error although the server
carried it out (here a deadline that passes after the write): then the handler
answers 500 and the store has gained the record. -/
theorem SubmitAnswer_error_body_not_bare_text :
    storeDown.fault storeDown.calls.length ≠ none ∧
    (SubmitAnswer ResponseWriter.fresh (request "POST" "/" "\x7b\"answer1\":\"Go\"\x7d")
      (worldOf storeDown)).1.code = 500 ∧
    (SubmitAnswer ResponseWriter.fresh (request "POST" "/" "\x7b\"answer1\":\"Go\"\x7d")
      (worldOf storeDown)).1.body ≠ "Database error" ∧
    storeLate.fault storeLate.calls.length ≠ none ∧
    (SubmitAnswer ResponseWriter.fresh (request "POST" "/" "\x7b\"answer1\":\"Go\"\x7d")
      (worldOf storeLate)).1.code = 500 ∧
    (SubmitAnswer ResponseWriter.fresh (request "POST" "/" "\x7b\"answer1\":\"Go\"\x7d")
      (worldOf storeLate)).2.client.records =
      [⟨"surveyDB", "answers", ⟨0⟩, [("Answer1", "Go"), ("Answer2", ""), ("Answer3", "")]⟩] := by
  decide

/-- C3, amended: for every request body, whenever `InsertOne` returns an error,
`SubmitAnswer` answers status 500 with a plain-text body that is exactly
`Database error` followed by one line feed (so no identifier is written), and
it makes that one `InsertOne` call and no other call on the store (the failed
insert is not retried); the store holds the records it held before, plus the
one document of that call when the server carried the insert out although it
reported the error. -/
theorem SubmitAnswer_store_failure (r : Request) (σ : World) (err : String)
    (hfail : σ.client.fault σ.client.calls.length = some err) :
    (SubmitAnswer ResponseWriter.fresh r σ).1.code = 500 ∧
    (SubmitAnswer ResponseWriter.fresh r σ).1.get "Content-Type" =
      some "text/plain; charset=utf-8" ∧
    (SubmitAnswer ResponseWriter.fresh r σ).1.body = "Database error\n" ∧
    (SubmitAnswer ResponseWriter.fresh r σ).2.client.calls =
      σ.client.calls ++
        [DriverCall.insertOne "surveyDB" "answers" (answerDoc (Decode r.Body Answer.zero).1)] ∧
    (SubmitAnswer ResponseWriter.fresh r σ).2.client.records =
      (if σ.client.applied σ.client.calls.length then
        σ.client.records ++ [⟨"surveyDB", "answers", σ.client.newObjectID σ.client.calls.length,
          answerDoc (Decode r.Body Answer.zero).1⟩]
      else σ.client.records) ∧
    (σ.client.applied σ.client.calls.length = false →
      (SubmitAnswer ResponseWriter.fresh r σ).2.client.records = σ.client.records) := by
  have hline : "Database error" ++ "\n" = "Database error\n" := by decide
  refine ⟨?_, ?_, ?_, ?_, ?_, ?_⟩
  · simp [SubmitAnswer, Mongo.InsertOne, hfail, fresh_error, ResponseWriter.code,
      StatusInternalServerError]
  · simp [SubmitAnswer, Mongo.InsertOne, hfail, fresh_error, ResponseWriter.get]
  · simp [SubmitAnswer, Mongo.InsertOne, hfail, fresh_error, hline]
  · simp [SubmitAnswer, Mongo.InsertOne, hfail]
  · simp [SubmitAnswer, Mongo.InsertOne, hfail]
  · intro hno
    simp [SubmitAnswer, Mongo.InsertOne, hfail, hno]

/-- The amended C3 at a store that is down and at one that reports an error
for an insert it carried out. -/
theorem SubmitAnswer_store_failure_witness :
    (SubmitAnswer ResponseWriter.fresh (request "POST" "/" "\x7b\"answer1\":\"Go\"\x7d")
      (worldOf storeDown)).1.code = 500 ∧
    (SubmitAnswer ResponseWriter.fresh (request "POST" "/" "\x7b\"answer1\":\"Go\"\x7d")
      (worldOf storeDown)).1.body = "Database error\n" ∧
    (SubmitAnswer ResponseWriter.fresh (request "POST" "/" "\x7b\"answer1\":\"Go\"\x7d")
      (worldOf storeDown)).2.client.records = [] ∧
    (SubmitAnswer ResponseWriter.fresh (request "POST" "/" "\x7b\"answer1\":\"Go\"\x7d")
      (worldOf storeLate)).2.client.calls =
      [DriverCall.insertOne "surveyDB" "answers"
        [("Answer1", "Go"), ("Answer2", ""), ("Answer3", "")]] :=
  have h := SubmitAnswer_store_failure (request "POST" "/" "\x7b\"answer1\":\"Go\"\x7d")
    (worldOf storeDown) "server selection error" (by decide)
  have h2 := SubmitAnswer_store_failure (request "POST" "/" "\x7b\"answer1\":\"Go\"\x7d")
    (worldOf storeLate) "context deadline exceeded" (by decide)
  ⟨h.1, h.2.2.1, h.2.2.2.2.2 (by decide), h2.2.2.2.1⟩

/-! ## Configuration and start-up -/

/-- C8: `getEnv` returns the value of the variable whenever it is set, also
when that value is the empty string, and the fallback when it is not set; with
`SERVER_PORT` and `MONGO_URI` unset `main` connects to
`mongodb://mongo-local:27017` and, once connected, listens on `:8080`. -/
theorem getEnv_presence_decides (env : Env) (key fallback : String) :
    (∀ v, env key = some v → getEnv env key fallback = v) ∧
    (env key = some "" → getEnv env key fallback = "") ∧
    (env key = none → getEnv env key fallback = fallback) ∧
    (getEnv env key fallback = fallback → env key = none ∨ env key = some fallback) ∧
    (env "SERVER_PORT" = none → env "MONGO_URI" = none →
      serverPort env = "8080" ∧ mongoURI env = "mongodb://mongo-local:27017" ∧
      ∀ b : Boot, b.env = env →
        (main b).head? = some (Event.connect "mongodb://mongo-local:27017") ∧
        (b.connectErr = none → Event.listenAndServe ":8080" mainRouter ∈ main b)) := by
  refine ⟨?_, ?_, ?_, ?_, ?_⟩
  · intro v hv
    simp [getEnv, hv]
  · intro hv
    simp [getEnv, hv]
  · intro hv
    simp [getEnv, hv]
  · intro hres
    cases hv : env key with
    | none => exact Or.inl rfl
    | some v =>
      right
      simpa [getEnv, hv] using hres
  · intro hport huri
    have h1 : serverPort env = "8080" := by simp [serverPort, getEnv, hport]
    have h2 : mongoURI env = "mongodb://mongo-local:27017" := by simp [mongoURI, getEnv, huri]
    refine ⟨h1, h2, ?_⟩
    intro b hb
    subst hb
    have hcolon : ":" ++ "8080" = ":8080" := by decide
    refine ⟨by simp [main, h2], ?_⟩
    intro hc
    cases hp : b.pingErr <;> simp [main, mainServe, hc, hp, h1, hcolon]

/-- C8 at the empty environment and at one that sets `SERVER_PORT` to the
empty string. -/
theorem getEnv_presence_decides_witness :
    getEnv (fun k => if k = "SERVER_PORT" then some "" else none) "SERVER_PORT" "8080" = "" ∧
    serverPort emptyEnv = "8080" ∧ mongoURI emptyEnv = "mongodb://mongo-local:27017" :=
  ⟨(getEnv_presence_decides (fun k => if k = "SERVER_PORT" then some "" else none)
      "SERVER_PORT" "8080").2.1 (by decide),
    ((getEnv_presence_decides emptyEnv "SERVER_PORT" "8080").2.2.2.2 rfl rfl).1,
    ((getEnv_presence_decides emptyEnv "SERVER_PORT" "8080").2.2.2.2 rfl rfl).2.1⟩

/-- C10: `main` first builds the client for the URI of `MONGO_URI` (the
default when it is unset).  When `mongo.Connect` returns an error, `main` logs
it and exits with status 1 without registering a route or calling
`ListenAndServe`; when it succeeds then, whatever the first ping returns,
`main` goes on to register the four routes and to call `ListenAndServe` on the
port `SERVER_PORT` names (8080 when it is unset) with the router they make up,
and nothing before that call exits the process. -/
theorem main_startup (b : Boot) :
    (∃ uri,
      (b.env "MONGO_URI" = some uri ∨
        (b.env "MONGO_URI" = none ∧ uri = "mongodb://mongo-local:27017")) ∧
      (main b).head? = some (Event.connect uri)) ∧
    (∀ err, b.connectErr = some err →
      (main b).getLast? = some (Event.exit 1) ∧
      (∀ path f methods, Event.handleFunc path f methods ∉ main b) ∧
      ∀ addr router, Event.listenAndServe addr router ∉ main b) ∧
    (b.connectErr = none →
      ∃ port before after,
        (b.env "SERVER_PORT" = some port ∨
          (b.env "SERVER_PORT" = none ∧ port = "8080")) ∧
        main b = before ++ Event.listenAndServe (":" ++ port) mainRouter :: after ∧
        Event.ping ∈ before ∧
        (∀ code, Event.exit code ∉ before) ∧
        (∀ e ∈ [Event.handleFunc "/" Handler.GetQuestion ["GET"],
            Event.handleFunc "/" Handler.SubmitAnswer ["POST"],
            Event.handleFunc "/health" Handler.HealthHandler ["GET"],
            Event.handleFunc "/ready" Handler.ReadyHandler ["GET"]], e ∈ before) ∧
        mainRouter.routes =
          [⟨[Matcher.path "/", Matcher.methods ["GET"]], some Handler.GetQuestion⟩,
            ⟨[Matcher.path "/", Matcher.methods ["POST"]], some Handler.SubmitAnswer⟩,
            ⟨[Matcher.path "/health", Matcher.methods ["GET"]], some Handler.HealthHandler⟩,
            ⟨[Matcher.path "/ready", Matcher.methods ["GET"]],
              some Handler.ReadyHandler⟩]) := by
  refine ⟨?_, ?_, ?_⟩
  · cases hu : b.env "MONGO_URI" with
    | none => exact ⟨_, Or.inr ⟨rfl, rfl⟩, by simp [main, mongoURI, getEnv, hu]⟩
    | some uri => exact ⟨uri, Or.inl rfl, by simp [main, mongoURI, getEnv, hu]⟩
  · intro err herr
    simp [main, herr]
  · intro hc
    have hport : ∃ port, (b.env "SERVER_PORT" = some port ∨
        (b.env "SERVER_PORT" = none ∧ port = "8080")) ∧ serverPort b.env = port := by
      cases hp : b.env "SERVER_PORT" with
      | none => exact ⟨_, Or.inr ⟨rfl, rfl⟩, by simp [serverPort, getEnv, hp]⟩
      | some port => exact ⟨port, Or.inl rfl, by simp [serverPort, getEnv, hp]⟩
    obtain ⟨port, henv, hserve⟩ := hport
    refine ⟨port, Event.connect (mongoURI b.env) :: Event.ping ::
        ((match b.pingErr with
          | some _ =>
            [Event.log "MongoDB not reachable at startup, readiness probe will handle it"]
          | none => []) ++
        [Event.log "Connected to MongoDB successfully",
          Event.handleFunc "/" Handler.GetQuestion ["GET"],
          Event.handleFunc "/" Handler.SubmitAnswer ["POST"],
          Event.handleFunc "/health" Handler.HealthHandler ["GET"],
          Event.handleFunc "/ready" Handler.ReadyHandler ["GET"],
          Event.log ("Starting server on port " ++ port ++ "...\n")]),
        (match b.serveErr with
          | some err => [Event.log err, Event.exit 1]
          | none => []), henv, ?_, ?_, ?_, ?_, rfl⟩
    · simp [main, mainServe, hc, hserve]
    · simp
    · cases b.pingErr <;> simp
    · simp

/-- C10 at a start-up where `SERVER_PORT` is 9090, the client is built and the
first ping fails, and at one where the client cannot be built. -/
theorem main_startup_witness :
    Event.listenAndServe ":9090" mainRouter ∈
      main ⟨fun k => if k = "SERVER_PORT" then some "9090" else none, none,
        some "server selection error", none⟩ ∧
    (main ⟨emptyEnv, some "error parsing uri", none, none⟩).getLast? = some (Event.exit 1) :=
  ⟨by
      obtain ⟨port, before, after, hport, h, _⟩ :=
        (main_startup ⟨fun k => if k = "SERVER_PORT" then some "9090" else none, none,
          some "server selection error", none⟩).2.2 rfl
      have hp : port = "9090" := by
        rcases hport with hp | ⟨hp, _⟩
        · exact (Option.some.inj hp).symm
        · exact absurd hp (by decide)
      subst hp
      rw [h]
      have hcolon : ":" ++ "9090" = ":9090" := by decide
      simp [hcolon],
    ((main_startup ⟨emptyEnv, some "error parsing uri", none, none⟩).2.1
      "error parsing uri" rfl).1⟩

/-! ## Routing -/

theorem saveError_answer (d : decodeState) (e : DecodeError) :
    (d.saveError e).answer = d.answer := by
  unfold decodeState.saveError
  cases d.savedError <;> rfl

theorem answerDoc_eq (a : Answer) :
    answerDoc a = [("Answer1", a.get Field.answer1), ("Answer2", a.get Field.answer2),
      ("Answer3", a.get Field.answer3)] := rfl

/-- One member changes a field only when it goes by that field's name and
holds a string. -/
theorem member_get (d : decodeState) (m : String × JValue) (f : Field) :
    (d.member m).answer.get f =
      if fieldOf m.1 = some f then
        match m.2 with
        | JValue.str s => s
        | _ => d.answer.get f
      else d.answer.get f := by
  unfold decodeState.member
  cases hf : fieldOf m.1 with
  | none => simp
  | some g =>
    cases hv : m.2 <;> cases g <;> cases f <;>
      simp [decodeState.value, saveError_answer, Answer.set, Answer.get]

theorem foldl_member_snoc (ms : List (String × JValue)) (m : String × JValue)
    (d : decodeState) :
    (ms ++ [m]).foldl decodeState.member d = (ms.foldl decodeState.member d).member m := by
  simp [List.foldl_append]

theorem named_snoc (f : Field) (ms : List (String × JValue)) (m : String × JValue) :
    named f (ms ++ [m]) = named f ms ++ (if fieldOf m.1 = some f then [m.2] else []) := by
  unfold named
  by_cases h : fieldOf m.1 = some f <;> simp [List.filter_append, List.filter_cons, h]

/-- Decoding an object whose members named after a field all hold strings
leaves in each field what the object provides for it. -/
theorem foldl_member_provided (f : Field) (ms : List (String × JValue))
    (hstr : ∀ m ∈ ms, fieldOf m.1 = some f → ∃ s, m.2 = JValue.str s) :
    (ms.foldl decodeState.member ⟨Answer.zero, none⟩).answer.get f = provided f ms := by
  induction ms using List.reverseRecOn with
  | nil => cases f <;> rfl
  | append_singleton ms m ih =>
    have ih1 := ih (fun x hx => hstr x (List.mem_append_left _ hx))
    rw [foldl_member_snoc, member_get]
    by_cases hf : fieldOf m.1 = some f
    · obtain ⟨s, hs⟩ := hstr m (by simp) hf
      simp [provided, named_snoc, hf, hs]
    · simp only [hf, if_false, ih1]
      simp [provided, named_snoc, hf]

/-- The error kept by a decode run is a type error. -/
theorem foldl_member_error (ms : List (String × JValue)) (d : decodeState)
    (hd : d.savedError = none ∨ ∃ v, d.savedError = some (DecodeError.unmarshalType v)) :
    (ms.foldl decodeState.member d).savedError = none ∨
      ∃ v, (ms.foldl decodeState.member d).savedError = some (DecodeError.unmarshalType v) := by
  induction ms generalizing d with
  | nil => exact hd
  | cons m ms ih =>
    apply ih
    unfold decodeState.member
    cases fieldOf m.1 with
    | none => exact hd
    | some g =>
      cases hv : m.2 <;> simp only [decodeState.value] <;> try exact hd
      all_goals
        unfold decodeState.saveError
        rcases hd with h | ⟨v, h⟩ <;> simp [h]

/-- A body that holds no JSON object leaves the target of `Decode` as it
was. -/
theorem Decode_not_object (body : String) (a : Answer)
    (h : ∀ ms, readValue body ≠ Except.ok (JValue.obj ms)) : (Decode body a).1 = a := by
  unfold Decode
  cases hr : readValue body with
  | error e => rfl
  | ok v =>
    cases v with
    | obj ms => exact absurd hr (h ms)
    | _ => rfl

/-- An error of `Decode` that is not a type error means the body holds no
complete JSON value. -/
theorem Decode_error_kind (body : String) (a : Answer) (e : DecodeError)
    (herr : (Decode body a).2 = some e) (hkind : ∀ v, e ≠ DecodeError.unmarshalType v) :
    ∀ ms, readValue body ≠ Except.ok (JValue.obj ms) := by
  intro ms hr
  unfold Decode at herr
  rw [hr] at herr
  simp only [unmarshal] at herr
  rcases foldl_member_error ms ⟨a, none⟩ (Or.inl rfl) with h | ⟨v, h⟩
  · rw [h] at herr
    cases herr
  · rw [h] at herr
    cases herr
    exact hkind v rfl

theorem SubmitAnswer_calls (w : ResponseWriter) (r : Request) (σ : World) :
    (SubmitAnswer w r σ).2.client.calls =
      σ.client.calls ++
        [DriverCall.insertOne "surveyDB" "answers" (answerDoc (Decode r.Body Answer.zero).1)] := by
  unfold SubmitAnswer Mongo.InsertOne
  cases σ.client.fault σ.client.calls.length <;> rfl

theorem SubmitAnswer_accepted (r : Request) (σ : World)
    (hok : σ.client.fault σ.client.calls.length = none) :
    (SubmitAnswer ResponseWriter.fresh r σ).1 =
      ⟨[], some 200,
        marshalString (σ.client.newObjectID σ.client.calls.length).Hex ++ "\n"⟩ ∧
    (SubmitAnswer ResponseWriter.fresh r σ).2.client.records =
      σ.client.records ++ [⟨"surveyDB", "answers", σ.client.newObjectID σ.client.calls.length,
        answerDoc (Decode r.Body Answer.zero).1⟩] := by
  simp [SubmitAnswer, Mongo.InsertOne, hok, EncodeString, fresh_write]

theorem SubmitAnswer_refused (w : ResponseWriter) (r : Request) (σ : World) (err : String)
    (hfail : σ.client.fault σ.client.calls.length = some err) :
    (SubmitAnswer w r σ).2.client.records =
      (if σ.client.applied σ.client.calls.length then
        σ.client.records ++ [⟨"surveyDB", "answers", σ.client.newObjectID σ.client.calls.length,
          answerDoc (Decode r.Body Answer.zero).1⟩]
      else σ.client.records) := by
  simp [SubmitAnswer, Mongo.InsertOne, hfail]

/-! ## Nesting beyond the scanner's limit -/

theorem scanFrom_feedRun (pre : List Char) :
    ∀ (s s1 : Scanner) (b : Bool) (rest : List Char), feedRun s pre = some s1 →
      ∃ b1, scanFrom s b (pre ++ rest) = scanFrom s1 b1 rest := by
  induction pre with
  | nil =>
    intro s s1 b rest h
    simp only [feedRun, Option.some.injEq] at h
    subst h
    exact ⟨b, rfl⟩
  | cons c pre ih =>
    intro s s1 b rest h
    simp only [feedRun] at h
    cases hf : s.feed c with
    | more s2 =>
      rw [hf] at h
      obtain ⟨b1, hb⟩ := ih s2 s1 (b || !isSpace c) rest h
      refine ⟨b1, ?_⟩
      rw [List.cons_append]
      simp only [scanFrom, hf]
      exact hb
    | done v => rw [hf] at h; cases h
    | fail => rw [hf] at h; cases h

theorem feed_open_array (stack : List Frame) :
    (Scanner.mk Step.beginValue stack).feed '[' =
      pushParseState stack (Frame.arrayValue []) Step.beginValueOrEmpty ∧
    (Scanner.mk Step.beginValueOrEmpty stack).feed '[' =
      pushParseState stack (Frame.arrayValue []) Step.beginValueOrEmpty := by
  have h1 : isSpace '[' = false := by decide
  have h2 : ('[' : Char) ≠ '\x7b' := by decide
  have h3 : ('[' : Char) ≠ ']' := by decide
  simp [Scanner.feed, stateBeginValue, h1, h2, h3]

/-- Opening more arrays than `maxNestingDepth` allows is a syntax error,
whatever follows. -/
theorem scanFrom_deep (n : Nat) :
    ∀ (st : Step) (stack : List Frame) (b : Bool) (rest : List Char),
      st = Step.beginValue ∨ st = Step.beginValueOrEmpty →
      stack.length ≤ 10000 → 10000 < stack.length + n →
      scanFrom ⟨st, stack⟩ b (List.replicate n '[' ++ rest) =
        Except.error DecodeError.malformed := by
  induction n with
  | zero =>
    intro st stack b rest _ h1 h2
    omega
  | succ n ih =>
    intro st stack b rest hst h1 h2
    have hfeed : (Scanner.mk st stack).feed '[' =
        pushParseState stack (Frame.arrayValue []) Step.beginValueOrEmpty := by
      rcases hst with h | h <;> subst h
      · exact (feed_open_array stack).1
      · exact (feed_open_array stack).2
    rw [List.replicate_succ, List.cons_append]
    by_cases hroom : stack.length + 1 ≤ 10000
    · have hpush : pushParseState stack (Frame.arrayValue []) Step.beginValueOrEmpty =
          Scan.more ⟨Step.beginValueOrEmpty, Frame.arrayValue [] :: stack⟩ := by
        simp [pushParseState, maxNestingDepth, hroom]
      simp only [scanFrom, hfeed, hpush]
      exact ih _ _ _ _ (Or.inr rfl) (by simpa using hroom) (by simp only [List.length_cons]; omega)
    · have hpush : pushParseState stack (Frame.arrayValue []) Step.beginValueOrEmpty =
          Scan.fail := by
        simp [pushParseState, maxNestingDepth, hroom]
      simp only [scanFrom, hfeed, hpush]

theorem readValue_deepIdBody : readValue deepIdBody = Except.error DecodeError.malformed := by
  obtain ⟨b1, h⟩ := scanFrom_feedRun "\x7b\"id\":".data ⟨Step.beginValue, []⟩
    ⟨Step.beginValue, [Frame.objectValue [] (some "id")]⟩ false
    (deepArrays ",\"answer1\":\"x\"\x7d".data) rfl
  show scanFrom ⟨Step.beginValue, []⟩ false
    ("\x7b\"id\":".data ++ deepArrays ",\"answer1\":\"x\"\x7d".data) = _
  rw [h]
  exact scanFrom_deep 10000 _ _ _ _ (Or.inl rfl) (by simp) (by simp)

theorem readValue_deepExtraBody :
    readValue deepExtraBody = Except.error DecodeError.malformed := by
  obtain ⟨b1, h⟩ := scanFrom_feedRun "\x7b\"answer1\":\"x\",\"extra\":".data
    ⟨Step.beginValue, []⟩
    ⟨Step.beginValue, [Frame.objectValue [("answer1", JValue.str "x")] (some "extra")]⟩ false
    (deepArrays ['\x7d']) rfl
  show scanFrom ⟨Step.beginValue, []⟩ false
    ("\x7b\"answer1\":\"x\",\"extra\":".data ++ deepArrays ['\x7d']) = _
  rw [h]
  exact scanFrom_deep 10000 _ _ _ _ (Or.inl rfl) (by simp) (by simp)

/-- A body in which the decoder finds no JSON object is stored as the document
with three empty answers. -/
theorem SubmitAnswer_unread (w : ResponseWriter) (method path body : String) (σ : World)
    (h : ∀ ms, readValue body ≠ Except.ok (JValue.obj ms)) :
    (SubmitAnswer w (request method path body) σ).2.client.calls =
      σ.client.calls ++ [DriverCall.insertOne "surveyDB" "answers"
        [("Answer1", ""), ("Answer2", ""), ("Answer3", "")]] := by
  rw [SubmitAnswer_calls]
  show σ.client.calls ++
    [DriverCall.insertOne "surveyDB" "answers" (answerDoc (Decode body Answer.zero).1)] = _
  rw [Decode_not_object body Answer.zero h]
  rfl

/-! ## Submitting an answer -/

/-- C1, as stated, fails twice.  The first body is a JSON object whose only
member is named `Answer1`, so `answer1`, `answer2` and `answer3` are all absent
and the store accepts the insert, yet the document passed to `InsertOne` has
`Answer1` equal to `x`, not to the empty string: the decoder matches member
names ignoring case.  The second body is the JSON object
`{"answer1":"x","extra":[[..]]}` with 10000 arrays nested in `extra`: the
decoder refuses nesting deeper than 10000 levels, reads nothing, and the
document has `Answer1` empty although the body provides `x`. -/
theorem SubmitAnswer_absent_field_not_empty :
    readValue "\x7b\"Answer1\":\"x\"\x7d" =
      Except.ok (JValue.obj [("Answer1", JValue.str "x")]) ∧
    (SubmitAnswer ResponseWriter.fresh (request "POST" "/" "\x7b\"Answer1\":\"x\"\x7d")
      (worldOf storeUp)).1.code = 200 ∧
    (SubmitAnswer ResponseWriter.fresh (request "POST" "/" "\x7b\"Answer1\":\"x\"\x7d")
      (worldOf storeUp)).2.client.calls =
      [DriverCall.insertOne "surveyDB" "answers"
        [("Answer1", "x"), ("Answer2", ""), ("Answer3", "")]] ∧
    readValue deepExtraBody = Except.error DecodeError.malformed ∧
    (SubmitAnswer ResponseWriter.fresh (request "POST" "/" deepExtraBody)
      (worldOf storeUp)).2.client.calls =
      [DriverCall.insertOne "surveyDB" "answers"
        [("Answer1", ""), ("Answer2", ""), ("Answer3", "")]] :=
  ⟨rfl, by decide, by decide, readValue_deepExtraBody,
    SubmitAnswer_unread _ "POST" "/" deepExtraBody (worldOf storeUp) (by
      intro ms h
      rw [readValue_deepExtraBody] at h
      cases h)⟩

/-- C1, amended: for every request body that the decoder reads as a JSON
object, that is a valid JSON object nested no deeper than the 10000 levels
`encoding/json` allows, in which every member named `answer1`, `answer2` or
`answer3`, the name compared ignoring case, holds a string, and whenever the
store accepts the insert, `SubmitAnswer` answers status 200 and the one
document it passes to `InsertOne`, which the store then holds in
`surveyDB.answers`, has `Answer1`, `Answer2`, `Answer3` equal to the string of
the last member so named, and to the empty string when there is no such
member. -/
theorem SubmitAnswer_stores_provided (r : Request) (σ : World) (ms : List (String × JValue))
    (hbody : readValue r.Body = Except.ok (JValue.obj ms))
    (hstr : ∀ m ∈ ms, ∀ f, fieldOf m.1 = some f → f ≠ Field.id →
      ∃ s, m.2 = JValue.str s)
    (hok : σ.client.fault σ.client.calls.length = none) :
    (SubmitAnswer ResponseWriter.fresh r σ).1.code = 200 ∧
    (SubmitAnswer ResponseWriter.fresh r σ).2.client.calls =
      σ.client.calls ++ [DriverCall.insertOne "surveyDB" "answers"
        [("Answer1", provided Field.answer1 ms), ("Answer2", provided Field.answer2 ms),
          ("Answer3", provided Field.answer3 ms)]] ∧
    (SubmitAnswer ResponseWriter.fresh r σ).2.client.records =
      σ.client.records ++ [⟨"surveyDB", "answers", σ.client.newObjectID σ.client.calls.length,
        [("Answer1", provided Field.answer1 ms), ("Answer2", provided Field.answer2 ms),
          ("Answer3", provided Field.answer3 ms)]⟩] := by
  have hdoc : answerDoc (Decode r.Body Answer.zero).1 =
      [("Answer1", provided Field.answer1 ms), ("Answer2", provided Field.answer2 ms),
        ("Answer3", provided Field.answer3 ms)] := by
    rw [answerDoc_eq]
    simp only [Decode, hbody, unmarshal]
    rw [foldl_member_provided Field.answer1 ms (fun m hm hf => hstr m hm _ hf (by decide)),
      foldl_member_provided Field.answer2 ms (fun m hm hf => hstr m hm _ hf (by decide)),
      foldl_member_provided Field.answer3 ms (fun m hm hf => hstr m hm _ hf (by decide))]
  obtain ⟨hw, hrec⟩ := SubmitAnswer_accepted r σ hok
  refine ⟨?_, ?_, ?_⟩
  · rw [hw]
    rfl
  · rw [SubmitAnswer_calls, hdoc]
  · rw [hrec, hdoc]

/-- The amended C1 at the body with all three answers and at the empty
object. -/
theorem SubmitAnswer_stores_provided_witness :
    (SubmitAnswer ResponseWriter.fresh
      (request "POST" "/"
        "\x7b\"answer1\":\"Go\",\"answer2\":\"Gorilla\",\"answer3\":\"Mongo\"\x7d")
      (worldOf storeUp)).2.client.records =
      [⟨"surveyDB", "answers", ⟨255⟩,
        [("Answer1", "Go"), ("Answer2", "Gorilla"), ("Answer3", "Mongo")]⟩] ∧
    (SubmitAnswer ResponseWriter.fresh (request "POST" "/" "\x7b\x7d")
      (worldOf storeUp)).2.client.records =
      [⟨"surveyDB", "answers", ⟨255⟩,
        [("Answer1", ""), ("Answer2", ""), ("Answer3", "")]⟩] :=
  ⟨(SubmitAnswer_stores_provided
      (request "POST" "/"
        "\x7b\"answer1\":\"Go\",\"answer2\":\"Gorilla\",\"answer3\":\"Mongo\"\x7d")
      (worldOf storeUp)
      [("answer1", JValue.str "Go"), ("answer2", JValue.str "Gorilla"),
        ("answer3", JValue.str "Mongo")]
      rfl
      (by
        intro m hm
        simp only [List.mem_cons, List.mem_singleton, List.not_mem_nil, or_false] at hm
        rcases hm with rfl | rfl | rfl <;> exact fun _ _ _ => ⟨_, rfl⟩)
      rfl).2.2,
    (SubmitAnswer_stores_provided (request "POST" "/" "\x7b\x7d") (worldOf storeUp) [] rfl
      (by simp) rfl).2.2⟩

/-- C2, as stated, fails: decoding this body returns an error (the number 5
does not fit the string field `Answer_2`), the store accepts the insert, yet
the document passed to `InsertOne` has `Answer1` equal to `Go`: a type error
skips one member only and the rest of the object is still decoded. -/
theorem SubmitAnswer_type_error_keeps_fields :
    (Decode "\x7b\"answer1\":\"Go\",\"answer2\":5\x7d" Answer.zero).2 =
      some (DecodeError.unmarshalType "number") ∧
    (SubmitAnswer ResponseWriter.fresh
      (request "POST" "/" "\x7b\"answer1\":\"Go\",\"answer2\":5\x7d")
      (worldOf storeUp)).1.code = 200 ∧
    (SubmitAnswer ResponseWriter.fresh
      (request "POST" "/" "\x7b\"answer1\":\"Go\",\"answer2\":5\x7d")
      (worldOf storeUp)).2.client.calls =
      [DriverCall.insertOne "surveyDB" "answers"
        [("Answer1", "Go"), ("Answer2", ""), ("Answer3", "")]] := by
  decide

/-- C2, amended: for every request body on which JSON decoding into `Answer`
returns an error, and whenever the store accepts the insert, `SubmitAnswer`
still answers status 200 with the JSON-encoded identifier of the new record,
so the decode error is never surfaced to the caller, and it stores one
document; that document has `Answer1`, `Answer2` and `Answer3` all equal to the
empty string whenever the error is not a type error (empty body, non-JSON
text, malformed or truncated JSON) or the body holds no JSON object. -/
theorem SubmitAnswer_decode_error (r : Request) (σ : World) (e : DecodeError)
    (herr : (Decode r.Body Answer.zero).2 = some e)
    (hok : σ.client.fault σ.client.calls.length = none) :
    (SubmitAnswer ResponseWriter.fresh r σ).1.code = 200 ∧
    (SubmitAnswer ResponseWriter.fresh r σ).1.body =
      marshalString (σ.client.newObjectID σ.client.calls.length).Hex ++ "\n" ∧
    (∃ doc,
      (SubmitAnswer ResponseWriter.fresh r σ).2.client.calls =
        σ.client.calls ++ [DriverCall.insertOne "surveyDB" "answers" doc] ∧
      (SubmitAnswer ResponseWriter.fresh r σ).2.client.records =
        σ.client.records ++
          [⟨"surveyDB", "answers", σ.client.newObjectID σ.client.calls.length, doc⟩]) ∧
    (((∀ v, e ≠ DecodeError.unmarshalType v) ∨
        (∀ ms, readValue r.Body ≠ Except.ok (JValue.obj ms))) →
      (SubmitAnswer ResponseWriter.fresh r σ).2.client.calls =
        σ.client.calls ++ [DriverCall.insertOne "surveyDB" "answers"
          [("Answer1", ""), ("Answer2", ""), ("Answer3", "")]]) := by
  obtain ⟨hw, hrec⟩ := SubmitAnswer_accepted r σ hok
  refine ⟨?_, ?_, ⟨_, SubmitAnswer_calls _ r σ, hrec⟩, ?_⟩
  · rw [hw]
    rfl
  · rw [hw]
  · intro h
    have hobj : ∀ ms, readValue r.Body ≠ Except.ok (JValue.obj ms) := by
      rcases h with h | h
      · exact Decode_error_kind r.Body Answer.zero e herr h
      · exact h
    rw [SubmitAnswer_calls, Decode_not_object r.Body Answer.zero hobj]
    rfl

/-- The amended C2 at the empty body and at a body that is not JSON. -/
theorem SubmitAnswer_decode_error_witness :
    (SubmitAnswer ResponseWriter.fresh (request "POST" "/" "") (worldOf storeUp)).1.code
      = 200 ∧
    (SubmitAnswer ResponseWriter.fresh (request "POST" "/" "") (worldOf storeUp)).2.client.calls =
      [DriverCall.insertOne "surveyDB" "answers"
        [("Answer1", ""), ("Answer2", ""), ("Answer3", "")]] ∧
    (SubmitAnswer ResponseWriter.fresh (request "POST" "/" "not json")
      (worldOf storeUp)).2.client.calls =
      [DriverCall.insertOne "surveyDB" "answers"
        [("Answer1", ""), ("Answer2", ""), ("Answer3", "")]] :=
  ⟨(SubmitAnswer_decode_error (request "POST" "/" "") (worldOf storeUp) DecodeError.eof
      rfl rfl).1,
    (SubmitAnswer_decode_error (request "POST" "/" "") (worldOf storeUp) DecodeError.eof
      rfl rfl).2.2.2 (Or.inl (fun _ h => nomatch h)),
    (SubmitAnswer_decode_error (request "POST" "/" "not json") (worldOf storeUp)
      DecodeError.malformed rfl rfl).2.2.2 (Or.inl (fun _ h => nomatch h))⟩

/-- Members that differ at most in the value of `id` are decoded to the same
three answers. -/
theorem member_same_answers (d d' : decodeState) (m m' : String × JValue)
    (hkey : m.1 = m'.1) (hval : m.1 ≠ "id" → m.2 = m'.2)
    (hd : answerDoc d.answer = answerDoc d'.answer) :
    answerDoc (d.member m).answer = answerDoc (d'.member m').answer := by
  have hid : fieldOf "id" = some Field.id := by decide
  have step : ∀ f, f ≠ Field.id → d.answer.get f = d'.answer.get f →
      (d.member m).answer.get f = (d'.member m').answer.get f := by
    intro f hf hget
    rw [member_get, member_get, ← hkey, hget]
    by_cases hm : fieldOf m.1 = some f
    · have hne : m.1 ≠ "id" := by
        intro h
        rw [h, hid] at hm
        exact hf (Option.some.inj hm).symm
      rw [← hval hne]
    · simp [hm]
  simp only [answerDoc_eq, List.cons.injEq, Prod.mk.injEq, true_and, and_true] at hd ⊢
  exact ⟨step _ (by decide) hd.1, step _ (by decide) hd.2.1, step _ (by decide) hd.2.2⟩

theorem foldl_same_answers (ms ms' : List (String × JValue)) (h : sameButId ms ms') :
    ∀ d d' : decodeState, answerDoc d.answer = answerDoc d'.answer →
      answerDoc (ms.foldl decodeState.member d).answer =
        answerDoc (ms'.foldl decodeState.member d').answer := by
  unfold sameButId at h
  induction h with
  | nil => exact fun _ _ hd => hd
  | cons hm _ ih =>
    intro d d' hd
    exact ih _ _ (member_same_answers d d' _ _ hm.1 hm.2 hd)

/-- A member that is not named after an answer field leaves the three answers
as they were. -/
theorem member_skip (d : decodeState) (m : String × JValue) (h : isAnswerMember m = false) :
    answerDoc (d.member m).answer = answerDoc d.answer := by
  have step : ∀ f, f ≠ Field.id → (d.member m).answer.get f = d.answer.get f := by
    intro f hf
    rw [member_get]
    have hm : fieldOf m.1 ≠ some f := by
      intro hm
      unfold isAnswerMember at h
      rw [hm] at h
      cases f <;> simp at h hf
    simp [hm]
  simp only [answerDoc_eq, step _ (by decide : Field.answer1 ≠ Field.id),
    step _ (by decide : Field.answer2 ≠ Field.id), step _ (by decide : Field.answer3 ≠ Field.id)]

/-- The three answers after decoding an object are those after decoding its
answer members alone. -/
theorem foldl_answerMembers (ms : List (String × JValue)) :
    ∀ d d' : decodeState, answerDoc d.answer = answerDoc d'.answer →
      answerDoc (ms.foldl decodeState.member d).answer =
        answerDoc ((answerMembers ms).foldl decodeState.member d').answer := by
  induction ms with
  | nil => exact fun _ _ hd => hd
  | cons m ms ih =>
    intro d d' hd
    by_cases hm : isAnswerMember m = true
    · have hkeep : answerMembers (m :: ms) = m :: answerMembers ms := by
        simp [answerMembers, List.filter_cons, hm]
      rw [hkeep]
      exact ih _ _ (member_same_answers d d' m m rfl (fun _ => rfl) hd)
    · have hm0 : isAnswerMember m = false := by simpa using hm
      have hdrop : answerMembers (m :: ms) = answerMembers ms := by
        simp [answerMembers, List.filter_cons, hm0]
      rw [hdrop]
      exact ih _ _ ((member_skip d m hm0).trans hd)

/-- C9, as stated, fails: the two bodies `{"id":"evil","answer1":"x"}` and
`{"id":[[..]],"answer1":"x"}`, the second with 10000 arrays nested in `id`,
differ only in the value of `id`, yet the documents passed to `InsertOne`
differ: the decoder refuses nesting deeper than 10000 levels and reads nothing
of the second body, so its `answer1` is lost. -/
theorem SubmitAnswer_deep_id_changes_document :
    (SubmitAnswer ResponseWriter.fresh
      (request "POST" "/" "\x7b\"id\":\"evil\",\"answer1\":\"x\"\x7d")
      (worldOf storeUp)).2.client.calls =
      [DriverCall.insertOne "surveyDB" "answers"
        [("Answer1", "x"), ("Answer2", ""), ("Answer3", "")]] ∧
    readValue deepIdBody = Except.error DecodeError.malformed ∧
    (SubmitAnswer ResponseWriter.fresh (request "POST" "/" deepIdBody)
      (worldOf storeUp)).2.client.calls =
      [DriverCall.insertOne "surveyDB" "answers"
        [("Answer1", ""), ("Answer2", ""), ("Answer3", "")]] :=
  ⟨by decide, readValue_deepIdBody,
    SubmitAnswer_unread _ "POST" "/" deepIdBody (worldOf storeUp) (by
      intro ms h
      rw [readValue_deepIdBody] at h
      cases h)⟩

/-- C9, amended: for every request body, the one document `SubmitAnswer` passes
to `InsertOne` has exactly the three keys `Answer1`, `Answer2`, `Answer3`; two
bodies that the decoder reads as JSON objects (valid JSON objects nested no
deeper than the 10000 levels `encoding/json` allows) and that differ only in
the value of their `id` members give identical documents, and so do any two
such bodies with the same answer members, whatever other members they carry;
and the identifier under which the store holds the record is the one generated
by the driver for that call, whatever the body says. -/
theorem SubmitAnswer_document_shape (r r' : Request) (σ : World) :
    (∃ a1 a2 a3,
      (SubmitAnswer ResponseWriter.fresh r σ).2.client.calls =
        σ.client.calls ++ [DriverCall.insertOne "surveyDB" "answers"
          [("Answer1", a1), ("Answer2", a2), ("Answer3", a3)]]) ∧
    (∀ ms ms', readValue r.Body = Except.ok (JValue.obj ms) →
      readValue r'.Body = Except.ok (JValue.obj ms') → sameButId ms ms' →
      (SubmitAnswer ResponseWriter.fresh r σ).2.client.calls =
        (SubmitAnswer ResponseWriter.fresh r' σ).2.client.calls ∧
      (SubmitAnswer ResponseWriter.fresh r σ).2.client.records =
        (SubmitAnswer ResponseWriter.fresh r' σ).2.client.records) ∧
    (∀ ms ms', readValue r.Body = Except.ok (JValue.obj ms) →
      readValue r'.Body = Except.ok (JValue.obj ms') → answerMembers ms = answerMembers ms' →
      (SubmitAnswer ResponseWriter.fresh r σ).2.client.calls =
        (SubmitAnswer ResponseWriter.fresh r' σ).2.client.calls) ∧
    (σ.client.fault σ.client.calls.length = none →
      ∃ doc,
        (SubmitAnswer ResponseWriter.fresh r σ).2.client.records =
          σ.client.records ++
            [⟨"surveyDB", "answers", σ.client.newObjectID σ.client.calls.length, doc⟩]) := by
  refine ⟨⟨_, _, _, SubmitAnswer_calls _ r σ⟩, ?_, ?_, ?_⟩
  rotate_left
  · intro ms ms' hb hb' hsame
    have hdoc : answerDoc (Decode r.Body Answer.zero).1 =
        answerDoc (Decode r'.Body Answer.zero).1 := by
      simp only [Decode, hb, hb', unmarshal]
      rw [foldl_answerMembers ms _ _ rfl, foldl_answerMembers ms' _ _ rfl, hsame]
    rw [SubmitAnswer_calls, SubmitAnswer_calls, hdoc]
  · intro hok
    exact ⟨_, (SubmitAnswer_accepted r σ hok).2⟩
  · intro ms ms' hb hb' hsame
    have hdoc : answerDoc (Decode r.Body Answer.zero).1 =
        answerDoc (Decode r'.Body Answer.zero).1 := by
      simp only [Decode, hb, hb', unmarshal]
      exact foldl_same_answers ms ms' hsame _ _ rfl
    constructor
    · rw [SubmitAnswer_calls, SubmitAnswer_calls, hdoc]
    · cases hf : σ.client.fault σ.client.calls.length with
      | none =>
        rw [(SubmitAnswer_accepted r σ hf).2, (SubmitAnswer_accepted r' σ hf).2, hdoc]
      | some err =>
        rw [SubmitAnswer_refused _ r σ err hf, SubmitAnswer_refused _ r' σ err hf, hdoc]

/-- C9 at two bodies that differ only in `id`, one a string and one a
number, and at two bodies of which one carries an extra member. -/
theorem SubmitAnswer_document_shape_witness :
    (SubmitAnswer ResponseWriter.fresh
      (request "POST" "/" "\x7b\"id\":\"evil\",\"answer1\":\"x\"\x7d")
      (worldOf storeUp)).2.client.records =
    (SubmitAnswer ResponseWriter.fresh
      (request "POST" "/" "\x7b\"id\":7,\"answer1\":\"x\"\x7d")
      (worldOf storeUp)).2.client.records ∧
    (SubmitAnswer ResponseWriter.fresh
      (request "POST" "/" "\x7b\"answer1\":\"x\",\"_id\":\"evil\"\x7d")
      (worldOf storeUp)).2.client.calls =
    (SubmitAnswer ResponseWriter.fresh
      (request "POST" "/" "\x7b\"answer1\":\"x\"\x7d")
      (worldOf storeUp)).2.client.calls :=
  ⟨((SubmitAnswer_document_shape
        (request "POST" "/" "\x7b\"id\":\"evil\",\"answer1\":\"x\"\x7d")
        (request "POST" "/" "\x7b\"id\":7,\"answer1\":\"x\"\x7d")
        (worldOf storeUp)).2.1
      [("id", JValue.str "evil"), ("answer1", JValue.str "x")]
      [("id", JValue.num ['7']), ("answer1", JValue.str "x")]
      rfl rfl
      (List.Forall₂.cons ⟨rfl, fun h => absurd rfl h⟩
        (List.Forall₂.cons ⟨rfl, fun _ => rfl⟩ List.Forall₂.nil))).2,
    (SubmitAnswer_document_shape
        (request "POST" "/" "\x7b\"answer1\":\"x\",\"_id\":\"evil\"\x7d")
        (request "POST" "/" "\x7b\"answer1\":\"x\"\x7d")
        (worldOf storeUp)).2.2.1
      [("answer1", JValue.str "x"), ("_id", JValue.str "evil")]
      [("answer1", JValue.str "x")]
      rfl rfl rfl⟩

end GoApp
